import Mathlib

/-!
Verification of `scripts/formatchecker/varlen_fmt.py` (XevoInc/hound).

The source defines one pure function `check(fmt_list)` that scans a list of
format descriptors (Python dicts) and raises
`jsonschema.exceptions.FormatError` when a descriptor whose `size` field
compares equal to `0` occurs at an index other than the last one; otherwise
it returns `True`.

Shallow embedding choices:
* Python values that can sit in a descriptor field are modelled by `Val`
  (integers, booleans, strings, `None`).  Python's `size == 0` comparison
  against the integer `0` is `eqZero` (in Python, `False == 0` is `True`;
  `None == 0` and `"" == 0` are `False`).
* a descriptor (a Python dict) is an association list `Desc`; dict key
  lookup is `List.lookup`, and dict keys are unique in Python so the
  first-match semantics of `List.lookup` is faithful.
* raising `FormatError` is modelled with `Except`: the error value carries
  the fixed message template of the source (the Python code interpolates the
  offending descriptor into the template with `% fmt`; the embedding keeps
  the template and the descriptor as the two components that determine the
  rendered message).
-/

/-- Identifying name under which the external validation framework registers
this checker (the `FORMAT_NAME` constant of the source). -/
def FORMAT_NAME : String := "varlen-fmt"

/-- Values a descriptor field may hold: Python integers, booleans, strings
and `None`. -/
inductive Val where
  | int : Int → Val
  | bool : Bool → Val
  | str : String → Val
  | null : Val
deriving DecidableEq, Repr

/-- Python's `v == 0` (comparison against the integer zero) on the modelled
value universe: `False == 0` is `True` in Python; `None` and strings never
compare equal to an integer. -/
def eqZero : Val → Bool
  | .int n => n == 0
  | .bool b => b == false
  | .str _ => false
  | .null => false

/-- A format descriptor: a Python dict, modelled as an association list from
string keys to values. -/
abbrev Desc : Type := List (String × Val)

/-- The error raised by the checker (`jsonschema.exceptions.FormatError`).
The source builds its message by interpolating the offending descriptor into
a fixed template string; the embedding records the template and the
descriptor, which together determine the rendered message. -/
structure FormatError where
  message : String
  fmt : Desc
deriving DecidableEq

/-- The fixed message template of the source (the triple-quoted string
literal in `varlen_fmt.py`, before `% fmt` interpolation). -/
def errTemplate : String :=
  "    variable-length (size 0) property must be the last format\n    specified but is not\n    fmt: %s"

/-- The loop body of `check`: `n` is `len(fmt_list)` of the full input, the
list argument is the remaining suffix and `i` the index of its head.  Each
iteration tries `fmt['size']` (`KeyError` means the lookup returns `none`
and the iteration is skipped), then raises when `size == 0 and
i != len(fmt_list)-1`. -/
def checkLoop (n : Nat) : List Desc → Nat → Except FormatError Bool
  | [], _ => Except.ok true
  | fmt :: rest, i =>
    match List.lookup "size" fmt with
    | none => checkLoop n rest (i + 1)
    | some size =>
      if eqZero size && i != n - 1 then
        Except.error ⟨errTemplate, fmt⟩
      else
        checkLoop n rest (i + 1)

/-- The `check` function of `varlen_fmt.py`: returns `True` if the format
list has no variable length formats other than possibly the last format in
the list, raises `FormatError` otherwise. -/
def check (fmt_list : List Desc) : Except FormatError Bool :=
  checkLoop fmt_list.length fmt_list 0

/-- A descriptor has a `size` field comparing equal to 0 (a "variable-length
format" in the words of the spec). -/
def descSizeZero (d : Desc) : Bool :=
  match List.lookup "size" d with
  | some v => eqZero v
  | none => false

/-- Number of loop iterations `checkLoop` performs (instrumentation of the
scan, used to state the linear-time bound). -/
def checkLoopSteps (n : Nat) : List Desc → Nat → Nat
  | [], _ => 0
  | fmt :: rest, i =>
    match List.lookup "size" fmt with
    | none => 1 + checkLoopSteps n rest (i + 1)
    | some size =>
      if eqZero size && i != n - 1 then 1
      else 1 + checkLoopSteps n rest (i + 1)

/-- The spec's acceptance predicate, written from the spec's words: no
descriptor having a `size` field equal to 0 occurs at an index other than
the last index of the sequence. -/
def GoodSpec (l : List Desc) : Prop :=
  ∀ i d, l[i]? = some d → descSizeZero d = true → i = l.length - 1

lemma checkLoop_ok_iff (l : List Desc) : ∀ (n i : Nat),
    checkLoop n l i = Except.ok true ↔
      ∀ j d, l[j]? = some d → descSizeZero d = true → i + j = n - 1 := by
  induction l with
  | nil => intro n i; simp [checkLoop]
  | cons f rest ih =>
    intro n i
    cases hf : List.lookup "size" f with
    | none =>
      rw [show checkLoop n (f :: rest) i = checkLoop n rest (i + 1) by
        simp [checkLoop, hf]]
      rw [ih]
      constructor
      · intro H j d hj hdz
        cases j with
        | zero =>
          simp only [List.getElem?_cons_zero, Option.some_inj] at hj
          subst hj
          simp [descSizeZero, hf] at hdz
        | succ j =>
          simp only [List.getElem?_cons_succ] at hj
          have := H j d hj hdz
          omega
      · intro H j d hj hdz
        have := H (j + 1) d (by simpa using hj) hdz
        omega
    | some v =>
      by_cases hz : eqZero v = true
      · by_cases hi : i = n - 1
        · rw [show checkLoop n (f :: rest) i = checkLoop n rest (i + 1) by
            simp [checkLoop, hf, hi]]
          rw [ih]
          constructor
          · intro H j d hj hdz
            cases j with
            | zero =>
              simp only [List.getElem?_cons_zero, Option.some_inj] at hj
              omega
            | succ j =>
              simp only [List.getElem?_cons_succ] at hj
              have := H j d hj hdz
              omega
          · intro H j d hj hdz
            have := H (j + 1) d (by simpa using hj) hdz
            omega
        · rw [show checkLoop n (f :: rest) i = Except.error ⟨errTemplate, f⟩ by
            simp [checkLoop, hf, hz, hi]]
          constructor
          · intro H; exact absurd H (by simp)
          · intro H
            have := H 0 f (by simp) (by simp [descSizeZero, hf, hz])
            omega
      · rw [show checkLoop n (f :: rest) i = checkLoop n rest (i + 1) by
          simp [checkLoop, hf, hz]]
        rw [ih]
        constructor
        · intro H j d hj hdz
          cases j with
          | zero =>
            simp only [List.getElem?_cons_zero, Option.some_inj] at hj
            subst hj
            simp [descSizeZero, hf] at hdz
            exact absurd hdz hz
          | succ j =>
            simp only [List.getElem?_cons_succ] at hj
            have := H j d hj hdz
            omega
        · intro H j d hj hdz
          have := H (j + 1) d (by simpa using hj) hdz
          omega

lemma checkLoop_ne_ok_false (l : List Desc) : ∀ (n i : Nat),
    checkLoop n l i ≠ Except.ok false := by
  induction l with
  | nil => intro n i; simp [checkLoop]
  | cons f rest ih =>
    intro n i
    cases hf : List.lookup "size" f with
    | none => simpa [checkLoop, hf] using ih n (i + 1)
    | some v =>
      by_cases hc : (eqZero v && i != n - 1) = true
      · simp [checkLoop, hf, hc]
      · simpa [checkLoop, hf, hc] using ih n (i + 1)

lemma lt_length_of_getElem?_some {l : List Desc} {i : Nat} {d : Desc}
    (h : l[i]? = some d) : i < l.length := by
  by_contra hge
  rw [List.getElem?_eq_none (by omega)] at h
  exact absurd h (by simp)

lemma checkLoop_error_of_first (l : List Desc) : ∀ (n i j : Nat) (d : Desc),
    l[j]? = some d → descSizeZero d = true → i + j ≠ n - 1 →
    (∀ k d2, k < j → l[k]? = some d2 → descSizeZero d2 = true → i + k = n - 1) →
    checkLoop n l i = Except.error ⟨errTemplate, d⟩ := by
  induction l with
  | nil => intro n i j d hj; simp at hj
  | cons f rest ih =>
    intro n i j d hj hdz hne hmin
    cases j with
    | zero =>
      simp only [List.getElem?_cons_zero, Option.some_inj] at hj
      subst hj
      have hi : i ≠ n - 1 := by omega
      cases hf : List.lookup "size" f with
      | none => simp [descSizeZero, hf] at hdz
      | some v =>
        have hz : eqZero v = true := by simpa [descSizeZero, hf] using hdz
        simp [checkLoop, hf, hz, hi]
    | succ j =>
      simp only [List.getElem?_cons_succ] at hj
      have hrec : checkLoop n rest (i + 1) = Except.error ⟨errTemplate, d⟩ := by
        apply ih n (i + 1) j d hj hdz (by omega)
        intro k d2 hk hkd hkz
        have := hmin (k + 1) d2 (by omega) (by simpa using hkd) hkz
        omega
      cases hf : List.lookup "size" f with
      | none => simpa [checkLoop, hf] using hrec
      | some v =>
        have hhead : ¬(eqZero v && i != n - 1) = true := by
          intro hc
          simp only [Bool.and_eq_true, bne_iff_ne, ne_eq] at hc
          have := hmin 0 f (by omega) (by simp) (by simp [descSizeZero, hf, hc.1])
          omega
        simpa [checkLoop, hf, hhead] using hrec

lemma check_ok_iff_aux (l : List Desc) :
    check l = Except.ok true ↔ GoodSpec l := by
  rw [check, checkLoop_ok_iff]
  constructor
  · intro H i d hi hdz
    have := H i d hi hdz
    omega
  · intro H j d hj hdz
    have := H j d hj hdz
    omega

lemma exists_error_iff_not_ok (l : List Desc) :
    (∃ e, check l = Except.error e) ↔ check l ≠ Except.ok true := by
  constructor
  · rintro ⟨e, he⟩ hok
    rw [hok] at he
    exact absurd he (by simp)
  · intro hne
    cases hc : check l with
    | ok b =>
      cases b with
      | false => exact absurd hc (checkLoop_ne_ok_false l l.length 0)
      | true => exact absurd hc hne
    | error e => exact ⟨e, rfl⟩

lemma exists_least_violation (l : List Desc)
    (h : ∃ i d, l[i]? = some d ∧ descSizeZero d = true ∧ i ≠ l.length - 1) :
    ∃ i d, l[i]? = some d ∧ descSizeZero d = true ∧ i ≠ l.length - 1 ∧
      ∀ k d2, k < i → l[k]? = some d2 → descSizeZero d2 = false := by
  classical
  obtain ⟨i, d, hd, hz, hne⟩ := h
  induction i using Nat.strong_induction_on generalizing d with
  | _ i ih =>
    by_cases hmin : ∀ k d2, k < i → l[k]? = some d2 → descSizeZero d2 = false
    · exact ⟨i, d, hd, hz, hne, hmin⟩
    · push_neg at hmin
      obtain ⟨k, d2, hk, hkd, hkz⟩ := hmin
      have hkz2 : descSizeZero d2 = true := by
        cases hb : descSizeZero d2 with
        | false => exact absurd hb hkz
        | true => rfl
      have hilen : i < l.length := lt_length_of_getElem?_some hd
      exact ih k hk d2 hkd hkz2 (by omega)

lemma check_error_iff_aux (l : List Desc) (e : FormatError) :
    check l = Except.error e ↔
      ∃ i d, l[i]? = some d ∧ descSizeZero d = true ∧ i ≠ l.length - 1 ∧
        e = ⟨errTemplate, d⟩ ∧
        ∀ j d2, j < i → l[j]? = some d2 → descSizeZero d2 = false := by
  constructor
  · intro he
    have hne : check l ≠ Except.ok true := by
      intro hok; rw [hok] at he; exact absurd he (by simp)
    have hbad : ¬ GoodSpec l := fun hg => hne ((check_ok_iff_aux l).mpr hg)
    have hex : ∃ i d, l[i]? = some d ∧ descSizeZero d = true ∧
        i ≠ l.length - 1 := by
      by_contra hno
      push_neg at hno
      exact hbad fun i d hi hdz => hno i d hi hdz
    obtain ⟨i0, d0, hd0, hdz0, hne0, hmin⟩ := exists_least_violation l hex
    have hrun : check l = Except.error ⟨errTemplate, d0⟩ := by
      apply checkLoop_error_of_first l l.length 0 i0 d0 hd0 hdz0 (by omega)
      intro k d2 hk hkd hkz
      rw [hmin k d2 hk hkd] at hkz
      exact absurd hkz (by simp)
    rw [he] at hrun
    exact ⟨i0, d0, hd0, hdz0, hne0, by simpa using hrun, hmin⟩
  · rintro ⟨i, d, hi, hdz, hne, he, hmin⟩
    subst he
    apply checkLoop_error_of_first l l.length 0 i d hi hdz (by omega)
    intro k d2 hk hkd hkz
    rw [hmin k d2 hk hkd] at hkz
    exact absurd hkz (by simp)

lemma eqZero_iff (v : Val) :
    eqZero v = true ↔ (v = Val.int 0 ∨ v = Val.bool false) := by
  cases v <;> simp [eqZero]

lemma descSizeZero_eq_of_lookup_eq {d1 d2 : Desc}
    (h : List.lookup "size" d1 = List.lookup "size" d2) :
    descSizeZero d1 = descSizeZero d2 := by
  unfold descSizeZero
  rw [h]

lemma goodSpec_mono_of_map_eq {l1 l2 : List Desc}
    (hmap : l1.map (List.lookup "size") = l2.map (List.lookup "size")) :
    GoodSpec l1 → GoodSpec l2 := by
  intro hg i d2 hi2 hdz2
  have hlen : l1.length = l2.length := by
    have := congrArg List.length hmap
    simpa using this
  have h1 : (l1.map (List.lookup "size"))[i]? =
      (l2.map (List.lookup "size"))[i]? := by rw [hmap]
  rw [List.getElem?_map, List.getElem?_map, hi2] at h1
  cases hd1 : l1[i]? with
  | none => rw [hd1] at h1; exact absurd h1 (by simp)
  | some d1 =>
    rw [hd1] at h1
    have h2 : List.lookup "size" d1 = List.lookup "size" d2 := by simpa using h1
    have hz1 : descSizeZero d1 = true := by
      rw [descSizeZero_eq_of_lookup_eq h2]; exact hdz2
    have := hg i d1 hd1 hz1
    omega

lemma checkLoopSteps_le (l : List Desc) : ∀ n i, checkLoopSteps n l i ≤ l.length := by
  induction l with
  | nil => intro n i; simp [checkLoopSteps]
  | cons f rest ih =>
    intro n i
    have hl : (f :: rest).length = rest.length + 1 := rfl
    cases hf : List.lookup "size" f with
    | none =>
      rw [show checkLoopSteps n (f :: rest) i = 1 + checkLoopSteps n rest (i + 1)
        from by simp [checkLoopSteps, hf]]
      have := ih n (i + 1)
      omega
    | some v =>
      by_cases hc : (eqZero v && i != n - 1) = true
      · rw [show checkLoopSteps n (f :: rest) i = 1 from by
          simp [checkLoopSteps, hf, hc]]
        omega
      · rw [show checkLoopSteps n (f :: rest) i = 1 + checkLoopSteps n rest (i + 1)
          from by simp [checkLoopSteps, hf, hc]]
        have := ih n (i + 1)
        omega

/-- C1: `check` returns `true` exactly when no descriptor with a `size`
field equal to 0 occurs at an index other than the last index of the
sequence, and in every other case it does not return normally but fails
with a `FormatError`. -/
theorem check_ok_iff_good_and_fails_otherwise : ∀ l : List Desc,
    (check l = Except.ok true ↔ GoodSpec l) ∧
    ((∃ e, check l = Except.error e) ↔ ¬ GoodSpec l) := by
  intro l
  refine ⟨check_ok_iff_aux l, ?_⟩
  rw [exists_error_iff_not_ok l]
  exact not_congr (check_ok_iff_aux l)

/-- C2: `check` fails with an error `e` exactly when there is a first
(lowest) index `i`, other than the last index, whose descriptor has
`size == 0`; the error's descriptor is exactly the descriptor at that
lowest offending index, and the error value is uniquely determined (the
scan aborts there, so exactly one error is raised). -/
theorem check_error_at_first_offending_index :
    ∀ (l : List Desc) (e : FormatError),
      check l = Except.error e ↔
        ∃ i d, l[i]? = some d ∧ descSizeZero d = true ∧ i ≠ l.length - 1 ∧
          e = ⟨errTemplate, d⟩ ∧
          ∀ j d2, j < i → l[j]? = some d2 → descSizeZero d2 = false :=
  check_error_iff_aux

/-- C3 counterexample: on the failing input `[{"size": 0}, {}]` the error's
message is the source's template, which is not the message text quoted by
the claim ("a variable-length (size 0) format must be the last format
specified"). -/
theorem check_error_message_differs_from_claim :
    check [[("size", Val.int 0)], []] =
      Except.error ⟨errTemplate, [("size", Val.int 0)]⟩ ∧
    errTemplate ≠
      "a variable-length (size 0) format must be the last format specified" :=
  ⟨rfl, by decide⟩

/-- C3 (amended): whenever `check` fails, the error carries (a) the fixed
message template of the source, "variable-length (size 0) property must be
the last format specified but is not" followed by "fmt:" and the offending
descriptor, and (b) the full content of the offending descriptor (a
descriptor occurring in the input whose `size` compares equal to 0), as a
structured error value from which both can be reported. -/
theorem check_error_carries_template_and_descriptor :
    ∀ (l : List Desc) (e : FormatError), check l = Except.error e →
      e.message = errTemplate ∧
      ∃ i : Nat, l[i]? = some e.fmt ∧ descSizeZero e.fmt = true := by
  intro l e he
  obtain ⟨i, d, hi, hdz, hne, hee, hmin⟩ := (check_error_iff_aux l e).mp he
  subst hee
  exact ⟨rfl, ⟨i, hi, hdz⟩⟩

theorem check_error_carries_template_and_descriptor_witness :
    (⟨errTemplate, [("size", Val.int 0)]⟩ : FormatError).message = errTemplate ∧
    ∃ i : Nat, ([[("size", Val.int 0)], []] : List Desc)[i]? =
        some (⟨errTemplate, [("size", Val.int 0)]⟩ : FormatError).fmt ∧
      descSizeZero (⟨errTemplate, [("size", Val.int 0)]⟩ : FormatError).fmt = true :=
  check_error_carries_template_and_descriptor [[("size", Val.int 0)], []]
    ⟨errTemplate, [("size", Val.int 0)]⟩ rfl

/-- C4: on every input on which `check` returns `true`, at most one
descriptor has `size == 0` (any two size-0 positions coincide), and any
size-0 descriptor sits at the last index of the sequence. -/
theorem check_ok_at_most_one_varlen : ∀ l : List Desc,
    check l = Except.ok true →
      (∀ (i j : Nat) (di dj : Desc), l[i]? = some di → l[j]? = some dj →
        descSizeZero di = true → descSizeZero dj = true → i = j) ∧
      (∀ (i : Nat) (di : Desc), l[i]? = some di → descSizeZero di = true →
        i = l.length - 1) := by
  intro l hok
  have hg : GoodSpec l := (check_ok_iff_aux l).mp hok
  refine ⟨?_, hg⟩
  intro i j di dj hi hj hzi hzj
  rw [hg i di hi hzi, hg j dj hj hzj]

theorem check_ok_at_most_one_varlen_witness :
    check [[("size", Val.int 0)]] = Except.ok true ∧
    (0 : Nat) = ([[("size", Val.int 0)]] : List Desc).length - 1 :=
  ⟨rfl, (check_ok_at_most_one_varlen [[("size", Val.int 0)]] rfl).2
    0 [("size", Val.int 0)] rfl rfl⟩

/-- C5: a descriptor lacking a `size` key never causes `check` to fail:
the descriptor carried by any error has a `size` key, and an input all of
whose descriptors lack a `size` key always returns `true` (the scan skips
them). -/
theorem check_sizeless_never_fails : ∀ l : List Desc,
    (∀ e, check l = Except.error e →
      (List.lookup "size" e.fmt).isSome = true) ∧
    ((∀ (i : Nat) (d : Desc), l[i]? = some d → List.lookup "size" d = none) →
      check l = Except.ok true) := by
  intro l
  constructor
  · intro e he
    obtain ⟨i, d, hi, hdz, hne, hee, hmin⟩ := (check_error_iff_aux l e).mp he
    subst hee
    cases hf : List.lookup "size" d with
    | none => simp [descSizeZero, hf] at hdz
    | some v => simp [hf]
  · intro hnone
    rw [check_ok_iff_aux]
    intro i d hi hdz
    have := hnone i d hi
    simp [descSizeZero, this] at hdz

theorem check_sizeless_never_fails_witness :
    (List.lookup "size"
      (⟨errTemplate, [("size", Val.int 0)]⟩ : FormatError).fmt).isSome = true ∧
    check ([] : List Desc) = Except.ok true :=
  ⟨(check_sizeless_never_fails [[("size", Val.int 0)], []]).1
      ⟨errTemplate, [("size", Val.int 0)]⟩ rfl,
   (check_sizeless_never_fails []).2 (by intro i d h; simp at h)⟩

/-- C6: a descriptor whose `size` key is present, placed at a non-last
index, triggers the failure exactly when its value compares numerically
equal to 0 — over the modelled value universe, exactly the integer 0 and
the boolean `False` (numerically 0 in Python); `None`, the empty string and
every other present-but-falsy value do not trigger it. -/
theorem varlen_triggers_iff_numerically_zero :
    ∀ (v : Val) (d : Desc),
      (∃ e, check [[("size", v)], d] = Except.error e) ↔
        (v = Val.int 0 ∨ v = Val.bool false) := by
  intro v d
  have hrun : check [[("size", v)], d] =
      (if eqZero v then Except.error ⟨errTemplate, [("size", v)]⟩
       else Except.ok true) := by
    by_cases hz : eqZero v = true
    · simp [check, checkLoop, hz]
    · cases hd : List.lookup "size" d with
      | none => simp [check, checkLoop, hz, hd]
      | some w => simp [check, checkLoop, hz, hd]
  rw [hrun]
  constructor
  · rintro ⟨e, he⟩
    rw [← eqZero_iff]
    by_contra hz
    rw [Bool.not_eq_true] at hz
    rw [hz] at he
    exact absurd he (by simp)
  · intro hv
    have hz : eqZero v = true := (eqZero_iff v).mpr hv
    exact ⟨⟨errTemplate, [("size", v)]⟩, by simp [hz]⟩

/-- C7: the scan is linear and total: the number of loop iterations is at
most the length of the input, each descriptor being visited at most once in
order, and on every finite input `check` yields a result (`true` or a
single `FormatError`; it never returns `false`). -/
theorem check_scan_linear : ∀ l : List Desc,
    checkLoopSteps l.length l 0 ≤ l.length ∧
    (check l = Except.ok true ∨ ∃ e, check l = Except.error e) := by
  intro l
  refine ⟨checkLoopSteps_le l l.length 0, ?_⟩
  cases hc : check l with
  | ok b =>
    cases b with
    | false => exact absurd hc (checkLoop_ne_ok_false l l.length 0)
    | true => exact Or.inl rfl
  | error e => exact Or.inr ⟨e, rfl⟩

/-- C8: on every singleton sequence `check` returns `true`, whatever the
descriptor's content, since the sole index 0 is also the last index. -/
theorem check_singleton_ok : ∀ d : Desc, check [d] = Except.ok true := by
  intro d
  cases hf : List.lookup "size" d with
  | none => simp [check, checkLoop, hf]
  | some v => simp [check, checkLoop, hf]

/-- C9: success of `check` is closed under taking prefixes: whenever
`check` returns `true` on `p ++ t`, it also returns `true` on the
prefix `p`. -/
theorem check_ok_on_prefixes : ∀ p t : List Desc,
    check (p ++ t) = Except.ok true → check p = Except.ok true := by
  intro p t h
  rw [check_ok_iff_aux] at h ⊢
  intro i d hi hdz
  have hip : i < p.length := lt_length_of_getElem?_some hi
  have hiapp : (p ++ t)[i]? = some d := by
    rw [List.getElem?_append_left hip]
    exact hi
  have hlast := h i d hiapp hdz
  rcases t with _ | ⟨x, xs⟩
  · simpa using hlast
  · exfalso
    have hl2 : (p ++ x :: xs).length = p.length + (xs.length + 1) := by simp
    omega

theorem check_ok_on_prefixes_witness :
    check ([[("size", Val.int 4)]] ++ [[("size", Val.int 0)]]) =
      Except.ok true ∧
    check [[("size", Val.int 4)]] = Except.ok true :=
  ⟨rfl, check_ok_on_prefixes [[("size", Val.int 4)]] [[("size", Val.int 0)]] rfl⟩

/-- C10: the success-or-failure outcome of `check` depends only on the
projection of the input to its `size` fields: two inputs whose pointwise
`size` lookups agree (same length, and at each index either both
descriptors lack `size` or both carry equal `size` values) succeed
together and fail together. -/
theorem check_depends_only_on_size_projection :
    ∀ l1 l2 : List Desc,
      l1.map (List.lookup "size") = l2.map (List.lookup "size") →
      ((check l1 = Except.ok true ↔ check l2 = Except.ok true) ∧
       ((∃ e, check l1 = Except.error e) ↔ (∃ e, check l2 = Except.error e))) := by
  intro l1 l2 hmap
  have hok : check l1 = Except.ok true ↔ check l2 = Except.ok true := by
    rw [check_ok_iff_aux, check_ok_iff_aux]
    exact ⟨goodSpec_mono_of_map_eq hmap, goodSpec_mono_of_map_eq hmap.symm⟩
  refine ⟨hok, ?_⟩
  rw [exists_error_iff_not_ok, exists_error_iff_not_ok]
  exact not_congr hok

theorem check_depends_only_on_size_projection_witness :
    (check [[("size", Val.int 0)], [("name", Val.str "a")]] = Except.ok true ↔
     check [[("size", Val.int 0), ("other", Val.null)], [("name", Val.str "b")]] =
       Except.ok true) ∧
    ((∃ e, check [[("size", Val.int 0)], [("name", Val.str "a")]] =
        Except.error e) ↔
     (∃ e, check [[("size", Val.int 0), ("other", Val.null)], [("name", Val.str "b")]] =
        Except.error e)) :=
  check_depends_only_on_size_projection
    [[("size", Val.int 0)], [("name", Val.str "a")]]
    [[("size", Val.int 0), ("other", Val.null)], [("name", Val.str "b")]] rfl
